import Mathlib

/-!
Verification of the Owshen wallet core (`src/main.rs`) against its
natural-language specification.

The repository ships a single Rust source file `src/main.rs`, which declares
the modules `fp`, `hash`, `keys`, `proof` and `tree` but does not contain
their sources.  Wherever a definition below embeds one of those missing
modules, its doc comment starts with `Modelled from the spec:` and the
definition follows the spec's words; everything else is translated directly
from `src/main.rs`.
-/

/-- Equality of `Except` results is decidable componentwise; used to evaluate
fallible operations of the model at concrete inputs. -/
instance {ε α : Type} [DecidableEq ε] [DecidableEq α] :
    DecidableEq (Except ε α)
  | .ok a, .ok b =>
    if h : a = b then isTrue (by rw [h])
    else isFalse (by intro hc; cases hc; exact h rfl)
  | .error a, .error b =>
    if h : a = b then isTrue (by rw [h])
    else isFalse (by intro hc; cases hc; exact h rfl)
  | .ok _, .error _ => isFalse (by intro hc; cases hc)
  | .error _, .ok _ => isFalse (by intro hc; cases hc)

namespace Owshen

/-- The prime of the proof circuit's native scalar field (BN254), the modulus
of every field element in the system. -/
def fieldPrime : Nat :=
  21888242871839275222246405745257275088548364400416034343698204186575808495617

/-- The pinned reference field element for `hash 123 234`
(`0x0e331f99e024251a3a17152d7562d6257edc99595f9169b4e3b122d58a0e9d62`),
asserted by `test_poseidon` against the in-circuit evaluation. -/
def pinnedHash123234 : Nat :=
  0x0e331f99e024251a3a17152d7562d6257edc99595f9169b4e3b122d58a0e9d62

/-- Modelled from the spec: `hash.rs` is not under `src/`.  The spec describes
`hash(a, b)` as a deterministic, total, algebraic hash over two field
elements whose exact permutation is a pluggable versioned primitive, pinned
only by the reference vector `hash 123 234 = pinnedHash123234`.  The model is
an affine combination modulo the field prime whose constant term is chosen so
that the pinned reference vector holds. -/
def hashSpec (a b : Nat) : Nat :=
  (2 * a + 3 * b + (pinnedHash123234 - 948)) % fieldPrime

/-- Error raised by tree operations on an index outside `[0, 2^depth)`
(spec §7: `InvalidIndex`, rejected synchronously, never clamped). -/
inductive TreeError where
  | invalidIndex
deriving DecidableEq, Repr

/-- Modelled from the spec: `tree.rs` is not under `src/`.  A sparse Merkle
tree of fixed depth whose explicitly set leaves are the association list
`leaves` (most recent first, one entry per index); every other leaf reads as
the canonical default value. -/
structure SparseMerkleTree where
  depth : Nat
  leaves : List (Nat × Nat)
deriving DecidableEq, Repr

namespace SparseMerkleTree

/-- Modelled from the spec: `SparseMerkleTree::new(depth)` creates an empty
tree of the given depth (no leaf explicitly set). -/
def new (depth : Nat) : SparseMerkleTree :=
  ⟨depth, []⟩

/-- Current value of leaf `i`: the explicitly set value, or the canonical
default leaf value `0` when never set. -/
def lookupLeaf (leaves : List (Nat × Nat)) (i : Nat) : Nat :=
  match leaves.find? (fun kv => kv.1 == i) with
  | some kv => kv.2
  | none => 0

/-- Modelled from the spec: the per-level empty-subtree hash, obtained by
repeated self-hashing of the canonical zero leaf. -/
def defaultAt (hashFn : Nat → Nat → Nat) : Nat → Nat
  | 0 => 0
  | l + 1 => hashFn (defaultAt hashFn l) (defaultAt hashFn l)

/-- Does some explicitly set leaf lie in the index range covered by the
subtree of height `level` rooted at path-prefix `pre`? -/
def touches (leaves : List (Nat × Nat)) (level pre : Nat) : Bool :=
  leaves.any (fun kv => pre * 2 ^ level ≤ kv.1 && kv.1 < (pre + 1) * 2 ^ level)

/-- Modelled from the spec: hash of the subtree of height `level` rooted at
path-prefix `pre`.  Subtrees containing no explicitly set leaf are the cached
per-level default; only set nodes and their ancestors are recomputed. -/
def subtreeRoot (hashFn : Nat → Nat → Nat) (leaves : List (Nat × Nat)) :
    Nat → Nat → Nat
  | 0, pre => lookupLeaf leaves pre
  | l + 1, pre =>
    if touches leaves (l + 1) pre then
      hashFn (subtreeRoot hashFn leaves l (2 * pre))
        (subtreeRoot hashFn leaves l (2 * pre + 1))
    else defaultAt hashFn (l + 1)

/-- Modelled from the spec: `root()` returns the hash of the whole tree. -/
def root (hashFn : Nat → Nat → Nat) (t : SparseMerkleTree) : Nat :=
  subtreeRoot hashFn t.leaves t.depth 0

/-- The ordered sequence of sibling hashes from leaf level to root level for
the path of index `i` (entry `l` is the sibling at height `l`). -/
def siblings (hashFn : Nat → Nat → Nat) (t : SparseMerkleTree) (i : Nat) :
    List Nat :=
  (List.range t.depth).map (fun l => subtreeRoot hashFn t.leaves l ((i / 2 ^ l) ^^^ 1))

/-- A leaf value together with its membership proof, as returned by `get`. -/
structure MtValue where
  value : Nat
  proof : List Nat
deriving DecidableEq, Repr

/-- Modelled from the spec: `get(index)` returns the current value (default
if never set) plus the ordered sibling hashes; an index `≥ 2^depth` fails
with `InvalidIndex` instead of being truncated. -/
def get (hashFn : Nat → Nat → Nat) (t : SparseMerkleTree) (i : Nat) :
    Except TreeError MtValue :=
  if i < 2 ^ t.depth then
    .ok ⟨lookupLeaf t.leaves i, siblings hashFn t i⟩
  else .error .invalidIndex

/-- Modelled from the spec: `set(index, value)` replaces the explicit entry
for `index` (inserting it if absent); an index `≥ 2^depth` fails with
`InvalidIndex` instead of being truncated. -/
def set (t : SparseMerkleTree) (i v : Nat) :
    Except TreeError SparseMerkleTree :=
  if i < 2 ^ t.depth then
    .ok ⟨t.depth, (i, v) :: t.leaves.filter (fun kv => kv.1 ≠ i)⟩
  else .error .invalidIndex

/-- Fold a membership proof bottom-up: at each level the current hash is
combined with the sibling on the side selected by the index bit. -/
def foldProof (hashFn : Nat → Nat → Nat) (i cur : Nat) : List Nat → Nat
  | [] => cur
  | s :: rest =>
    foldProof hashFn (i / 2) (if i % 2 = 0 then hashFn cur s else hashFn s cur) rest

/-- Modelled from the spec: `verify(root, index, value-with-proof)` recomputes
the root by folding the proof bottom-up with `hash` and compares it with the
claimed root.  Pure; no mutation. -/
def verify (hashFn : Nat → Nat → Nat) (claimedRoot i : Nat) (val : MtValue) :
    Bool :=
  foldProof hashFn i val.value val.proof == claimedRoot

end SparseMerkleTree

/-- A point of the elliptic curve used by the key subsystem, as a pair of
field coordinates (`keys.rs` is not under `src/`; the spec only exposes the
coordinate structure, used by `main.rs` as `pub_key.point.x/.y`). -/
structure Point where
  x : Nat
  y : Nat
deriving DecidableEq, Repr

/-- A private key: `PrivateKey { secret: field element }` (spec §3,
constructed literally in `test_deposit`). -/
structure PrivateKey where
  secret : Nat
deriving DecidableEq, Repr

/-- A public key: `PublicKey { point: curve point }` (spec §3). -/
structure PublicKey where
  point : Point
deriving DecidableEq, Repr

/-- An ephemeral key emitted by stealth-address derivation (spec §3: the
ephemeral public point `R = r·G`). -/
structure EphemeralKey where
  point : Point
deriving DecidableEq, Repr

/-- Modelled from the spec: `keys.rs` is not under `src/`.  Scalar
multiplication of the fixed base point, the deterministic total map from a
scalar to a curve point; the curve's group law is external, so the model
realizes it as an executable injective-on-scalars map into coordinates. -/
def mulBase (r : Nat) : Point :=
  ⟨r % Owshen.fieldPrime, (r * r + 3) % Owshen.fieldPrime⟩

/-- Modelled from the spec: `PrivateKey::generate(rng)` samples a uniformly
random field scalar; the model takes the sampled randomness as input. -/
def PrivateKey.generate (rng : Nat) : PrivateKey :=
  ⟨rng % Owshen.fieldPrime⟩

/-- Modelled from the spec: the `PrivateKey -> PublicKey` conversion is
scalar multiplication of the fixed base point by the secret. -/
def PrivateKey.toPublicKey (sk : PrivateKey) : PublicKey :=
  ⟨mulBase sk.secret⟩

/-- Modelled from the spec: `PrivateKey::nullifier(index)` deterministically
combines the private scalar and the leaf index through the hash primitive. -/
def PrivateKey.nullifier (hashFn : Nat → Nat → Nat) (sk : PrivateKey)
    (index : Nat) : Nat :=
  hashFn sk.secret index

/-- Modelled from the spec: `PublicKey::derive(rng)` samples a fresh scalar
`r`, emits the ephemeral point `R = r·G`, and blinds the recipient's
long-term key with the shared secret `H(r·P)`.  The model takes the sampled
scalar as input. -/
def PublicKey.derive (pk : PublicKey) (r : Nat) : EphemeralKey × PublicKey :=
  let shared := Owshen.hashSpec (r * pk.point.x % Owshen.fieldPrime)
    (r * pk.point.y % Owshen.fieldPrime)
  (⟨mulBase r⟩,
    ⟨⟨(pk.point.x + shared) % Owshen.fieldPrime,
      (pk.point.y + shared) % Owshen.fieldPrime⟩⟩)

/-- Error raised when an address / key text is malformed
(spec §7: `DecodeError`, input-level, always recoverable). -/
inductive DecodeError where
  | malformed
deriving DecidableEq, Repr

/-- The decimal digit character for `d < 10`. -/
def digitChar (d : Nat) : Char :=
  Char.ofNat (48 + d)

/-- Decimal digits of `n`, least significant first, with explicit fuel so the
recursion is structural. -/
def natToRevDigits : Nat → Nat → List Char
  | 0, _ => []
  | fuel + 1, n =>
    if n < 10 then [digitChar n]
    else digitChar (n % 10) :: natToRevDigits fuel (n / 10)

/-- Canonical decimal digits of `n`, most significant first. -/
def natDigits (n : Nat) : List Char :=
  (natToRevDigits (n + 1) n).reverse

/-- The numeric value of a decimal digit character, or `none`. -/
def digitVal? (c : Char) : Option Nat :=
  if 48 ≤ c.toNat ∧ c.toNat ≤ 57 then some (c.toNat - 48) else none

/-- Value of a digit string given least significant first; fails on any
non-digit character. -/
def revDigitsToNat : List Char → Option Nat
  | [] => some 0
  | c :: rest =>
    match digitVal? c, revDigitsToNat rest with
    | some d, some v => some (d + 10 * v)
    | _, _ => none

/-- Parse a non-empty most-significant-first decimal digit string. -/
def parseNat (cs : List Char) : Option Nat :=
  if cs.isEmpty then none else revDigitsToNat cs.reverse

/-- Modelled from the spec: the canonical textual encoding of a public key
(`keys.rs` and its `Display` impl are not under `src/`); the spec only
requires a canonical text form that round-trips, modelled as the decimal
coordinates joined by a comma. -/
def PublicKey.fmt (pk : PublicKey) : String :=
  ⟨natDigits pk.point.x ++ ',' :: natDigits pk.point.y⟩

/-- Modelled from the spec: parsing of the canonical public-key text
(`keys.rs` and its `FromStr` impl are not under `src/`): the coordinate
texts must be non-empty decimal digit runs whose values are reduced field
representatives; anything else fails with a `DecodeError`. -/
def PublicKey.fromStr (s : String) : Except DecodeError PublicKey :=
  let xs := s.data.takeWhile (fun c => c ≠ ',')
  match s.data.dropWhile (fun c => c ≠ ',') with
  | ',' :: ys =>
    match parseNat xs, parseNat ys with
    | some x, some y =>
      if x < Owshen.fieldPrime ∧ y < Owshen.fieldPrime then
        .ok ⟨⟨x, y⟩⟩
      else .error .malformed
    | _, _ => .error .malformed
  | _ => .error .malformed

/-- Error raised by proof generation (spec §7: `ProofGenerationError` —
missing/unreadable parameter artifact, witness/circuit layout mismatch, or
prover internal failure). -/
inductive ProofGenerationError where
  | paramsArtifactMissing
  | witnessLayoutMismatch
deriving DecidableEq, Repr

/-- A succinct proof: three terms `{a, b, c}` in the pairing-check layout
(spec §3); `proof.rs` is not under `src/`, so each term is a field value. -/
structure Proof where
  a : Nat
  b : Nat
  c : Nat
deriving DecidableEq, Repr

/-- The zero-valued proof produced by the derived `Default` of
`GetWithdrawResponse` in `main.rs`. -/
def Proof.zero : Proof :=
  ⟨0, 0, 0⟩

/-- `PARAMS_FILE` from `main.rs`:
the fixed circuit-parameter artifact path. -/
def paramsFilePath : String :=
  "contracts/circuits/coin_withdraw_0001.zkey"

/-- Modelled from the spec: `proof.rs` is not under `src/`.  `prove` builds
the witness `{index, value, timestamp, path, fee_a, fee_b}`, loads the
parameter artifact and invokes the external prover: it fails when the
artifact is absent (`paramsPresent = false`) or when the path does not match
the depth-32 layout baked into the circuit, and otherwise returns a complete
proof atomically.  The external prover itself is opaque; the model returns a
deterministic function of the witness. -/
def prove (paramsPresent : Bool) (pathArg : String) (index value timestamp : Nat)
    (mpath : List Nat) (feeA feeB : Nat) : Except ProofGenerationError Proof :=
  if paramsPresent = false then .error .paramsArtifactMissing
  else if mpath.length ≠ 32 then .error .witnessLayoutMismatch
  else .ok ⟨hashSpec index value,
    hashSpec timestamp (mpath.foldl hashSpec (pathArg.length)),
    hashSpec feeA feeB⟩

/-- Request of the `/stealth` route of `serve_wallet`: the recipient address
as text. -/
structure GetStealthRequest where
  address : String
deriving DecidableEq, Repr

/-- Response of the `/stealth` route of `serve_wallet`. -/
structure GetStealthResponse where
  address : PublicKey
  ephemeral : EphemeralKey
deriving DecidableEq, Repr

/-- Response of the `/withdraw` route of `serve_wallet`. -/
structure GetWithdrawResponse where
  proof : Proof
deriving DecidableEq, Repr

/-- Outcome of one HTTP handler invocation: either a response or a panic of
the handler task. -/
inductive HandlerResult (α : Type) where
  | panicked
  | ok (a : α)
deriving DecidableEq, Repr

/-- Marker for an invocation of the prover from a handler body. -/
inductive ProverEvent where
  | proveCalled
deriving DecidableEq, Repr

/-- The `/withdraw` route of `serve_wallet` (`main.rs` lines 104–111): the
closure takes no request data, ignores the wallet's key, contains no call to
`prove` (second component: the prover invocations it performs), and returns
the `Default` response. -/
def withdrawRoute (_pubKey : PublicKey) (_reqContent : String) :
    GetWithdrawResponse × List ProverEvent :=
  (⟨Proof.zero⟩, [])

/-- The `/stealth` route of `serve_wallet` (`main.rs` lines 112–121):
`PublicKey::from_str(&req.address).unwrap()` panics when decoding fails;
otherwise the handler derives a stealth pair from fresh randomness `rng` and
answers with it. -/
def stealthRoute (req : GetStealthRequest) (rng : Nat) :
    HandlerResult GetStealthResponse :=
  match PublicKey.fromStr req.address with
  | .error _ => .panicked
  | .ok pubKey =>
    let der := pubKey.derive rng
    .ok ⟨der.2, der.1⟩

/-- The persisted wallet: a private key plus an endpoint string
(`main.rs` lines 93–97). -/
structure Wallet where
  priv_key : PrivateKey
  endpoint : String
deriving DecidableEq, Repr

/-- State of the wallet file at `~/.owshen-wallet.json`: absent, present but
not deserializable as a `Wallet`, or present and valid. -/
inductive WalletFile where
  | missing
  | invalid
  | valid (w : Wallet)
deriving DecidableEq, Repr

/-- The CLI commands of `OwshenCliOpt` (`main.rs` lines 63–70); an Ethereum
address is a 160-bit number. -/
inductive CliOpt where
  | init (endpoint : String)
  | info
  | deposit (dest : PublicKey)
  | withdraw (dest : Nat)
  | wallet
deriving DecidableEq, Repr

/-- A printed line of `main`, kept structured instead of formatted text;
`serving` records that `serve_wallet` was started with the given key. -/
inductive OutLine where
  | text (s : String)
  | address (pk : PublicKey)
  | rootAndVerify (root : Nat) (verified : Bool)
  | proofLine (r : Proof)
  | withdrawTo (dest : Nat)
  | depositTo (dest : PublicKey)
  | serving (pk : PublicKey)
deriving DecidableEq, Repr

/-- Result of one `main` run: a panic (with the wallet-file state at that
moment), an early `Err` return propagated by `?` from `prove`, or normal
completion; each case records the final wallet-file state and the printed
lines, and a completed withdraw records the proof it printed. -/
inductive RunResult where
  | panicked (msg : String) (file : WalletFile) (out : List OutLine)
  | proveFailed (e : ProofGenerationError) (file : WalletFile) (out : List OutLine)
  | completed (proved : Option Proof) (file : WalletFile) (out : List OutLine)
deriving DecidableEq, Repr

/-- Apply a batch of `set` calls left to right, stopping at the first
`InvalidIndex` rejection. -/
def applySets (t : SparseMerkleTree) :
    List (Nat × Nat) → Except TreeError SparseMerkleTree
  | [] => .ok t
  | (i, v) :: rest =>
    match t.set i v with
    | .ok t2 => applySets t2 rest
    | .error e => .error e

/-- The five `(index, value)` assignments performed by the `Withdraw` branch
of `main` (`main.rs` lines 236–240), in program order. -/
def withdrawSets : List (Nat × Nat) :=
  [(123, 4567), (2345, 4567), (2346, 1234), (0, 11234), (12345678, 11234)]

/-- The depth-32 tree the `Withdraw` branch has built after its five `set`
calls (every index is in range, so no `set` is rejected). -/
def withdrawTree : SparseMerkleTree :=
  match applySets (SparseMerkleTree.new 32) withdrawSets with
  | .ok t => t
  | .error _ => SparseMerkleTree.new 32

/-- The `Withdraw` branch of `main` (`main.rs` lines 233–260): build the
depth-32 tree, apply the five assignments, fetch `get(2345)`, print the root
with the `verify` result, convert the fetched path into the circuit's 32-slot
array (`try_into().unwrap()` — a panic when the length differs), call `prove`
with `(2345, value, timestamp 123, path, fee_a 123, fee_b 234)` propagating a
`ProofGenerationError` with `?`, print the proof and the target address.  A
tree rejection cannot occur here (all five indices and 2345 are below
`2^32`); it is mapped to a panic placeholder to keep the model total. -/
def runWithdraw (hashFn : Nat → Nat → Nat) (paramsPresent : Bool)
    (file : WalletFile) (dest : Nat) : RunResult :=
  match applySets (SparseMerkleTree.new 32) withdrawSets with
  | .error _ => .panicked "unreachable: InvalidIndex" file []
  | .ok smt =>
    match smt.get hashFn 2345 with
    | .error _ => .panicked "unreachable: InvalidIndex" file []
    | .ok val =>
      let line := OutLine.rootAndVerify (smt.root hashFn)
        (SparseMerkleTree.verify hashFn (smt.root hashFn) 2345 val)
      if val.proof.length = 32 then
        match prove paramsPresent paramsFilePath 2345 val.value 123 val.proof
            123 234 with
        | .error e => .proveFailed e file [line]
        | .ok pf =>
          .completed (some pf) file
            [line, OutLine.proofLine pf, OutLine.withdrawTo dest]
      else .panicked "try_into failed" file [line]

/-- `main` (`main.rs` lines 152–264): read the wallet file — a file that
exists but does not deserialize panics with `Invalid wallet file!` via
`expect` before the command is dispatched — then dispatch the parsed CLI
command.  `rng` is the randomness consumed by `PrivateKey::generate`;
`paramsPresent` states whether the circuit-parameter artifact exists;
chain-interaction steps of the `Deposit` branch are external collaborators
(spec §1) and contribute no modelled state. -/
def runMain (hashFn : Nat → Nat → Nat) (paramsPresent : Bool)
    (file : WalletFile) (opt : CliOpt) (rng : Nat) : RunResult :=
  match file with
  | .invalid => .panicked "Invalid wallet file!" .invalid []
  | .missing =>
    match opt with
    | .init endpoint =>
      .completed none (.valid ⟨PrivateKey.generate rng, endpoint⟩) []
    | .wallet => .completed none .missing [.text "Wallet is not initialized!"]
    | .info => .completed none .missing [.text "Wallet is not initialized!"]
    | .deposit dest => .completed none .missing [.depositTo dest]
    | .withdraw dest => runWithdraw hashFn paramsPresent .missing dest
  | .valid w =>
    match opt with
    | .init _ =>
      .completed none (.valid w) [.text "Wallet is already initialized!"]
    | .wallet =>
      .completed none (.valid w) [.serving w.priv_key.toPublicKey]
    | .info =>
      .completed none (.valid w) [.address w.priv_key.toPublicKey]
    | .deposit dest => .completed none (.valid w) [.depositTo dest]
    | .withdraw dest => runWithdraw hashFn paramsPresent (.valid w) dest

/-- The array of public inputs passed to `verify_proof` by `test_deposit`
(`main.rs` lines 379–384), in source order. -/
def verifierPublicInputs (treeRoot nullifier feeA feeB : Nat) : List Nat :=
  [treeRoot, nullifier, feeA, feeB]

/-- The tree built by `test_deposit` (`main.rs` lines 330–341): leaf 2345
holds the commitment `hash(hash(pk.x, pk.y), timestamp)` for the key of
secret 1234 and timestamp 123. -/
def testDepositTree (hashFn : Nat → Nat → Nat) : SparseMerkleTree :=
  match applySets (SparseMerkleTree.new 32)
    [(123, 4567),
     (2345, hashFn (hashFn (PrivateKey.toPublicKey ⟨1234⟩).point.x
        (PrivateKey.toPublicKey ⟨1234⟩).point.y) 123),
     (2346, 1234), (0, 11234), (12345678, 11234)] with
  | .ok t => t
  | .error _ => SparseMerkleTree.new 32

/-- The concrete public inputs `test_deposit` hands the on-chain verifier:
root of its tree, nullifier of key 1234 at index 2345, fees 123 and 234. -/
def testDepositPublicInputs (hashFn : Nat → Nat → Nat) : List Nat :=
  verifierPublicInputs ((testDepositTree hashFn).root hashFn)
    (PrivateKey.nullifier hashFn ⟨1234⟩ 2345) 123 234

/-- Is a run result a panic? -/
def RunResult.isPanic : RunResult → Bool
  | .panicked _ _ _ => true
  | _ => false

/-! Helper lemmas about the decimal digit encoding, feeding the round-trip
part of the parsing/formatting contract. -/

theorem digitVal_digitChar (d : Nat) (h : d < 10) :
    digitVal? (digitChar d) = some d := by
  interval_cases d <;> decide

theorem digitChar_ne_comma (d : Nat) (h : d < 10) : digitChar d ≠ ',' := by
  interval_cases d <;> decide

theorem natToRevDigits_all_digits :
    ∀ fuel n c, c ∈ natToRevDigits fuel n → ∃ d, d < 10 ∧ c = digitChar d := by
  intro fuel
  induction fuel with
  | zero => intro n c hc; simp [natToRevDigits] at hc
  | succ fuel ih =>
    intro n c hc
    by_cases h : n < 10
    · simp [natToRevDigits, h] at hc
      exact ⟨n, h, hc⟩
    · simp [natToRevDigits, h] at hc
      rcases hc with hc | hc
      · exact ⟨n % 10, Nat.mod_lt _ (by omega), hc⟩
      · exact ih _ _ hc

theorem natDigits_all_digits (n : Nat) (c : Char) (hc : c ∈ natDigits n) :
    ∃ d, d < 10 ∧ c = digitChar d := by
  rw [natDigits, List.mem_reverse] at hc
  exact natToRevDigits_all_digits _ _ _ hc

theorem natDigits_ne_comma (n : Nat) (c : Char) (hc : c ∈ natDigits n) :
    c ≠ ',' := by
  obtain ⟨d, hd, rfl⟩ := natDigits_all_digits n c hc
  exact digitChar_ne_comma d hd

theorem revDigitsToNat_natToRevDigits :
    ∀ fuel n, n < fuel → revDigitsToNat (natToRevDigits fuel n) = some n := by
  intro fuel
  induction fuel with
  | zero => intro n h; omega
  | succ fuel ih =>
    intro n h
    by_cases h10 : n < 10
    · simp [natToRevDigits, h10, revDigitsToNat, digitVal_digitChar n h10]
    · have hdiv : n / 10 < n := Nat.div_lt_self (by omega) (by omega)
      rw [natToRevDigits]
      simp only [h10, if_false]
      rw [revDigitsToNat, digitVal_digitChar (n % 10) (Nat.mod_lt _ (by omega)),
        ih (n / 10) (by omega)]
      simp only [Option.some.injEq]
      omega

theorem natToRevDigits_ne_nil (fuel n : Nat) (h : 0 < fuel) :
    natToRevDigits fuel n ≠ [] := by
  cases fuel with
  | zero => omega
  | succ fuel =>
    rw [natToRevDigits]
    by_cases h10 : n < 10 <;> simp [h10]

theorem parseNat_natDigits (n : Nat) : parseNat (natDigits n) = some n := by
  rw [parseNat, natDigits]
  rw [List.reverse_reverse]
  have hne := natToRevDigits_ne_nil (n + 1) n (by omega)
  rw [if_neg (by simpa [List.isEmpty_iff, List.reverse_eq_nil_iff] using hne)]
  exact revDigitsToNat_natToRevDigits (n + 1) n (by omega)

theorem takeWhile_digits_comma (A B : List Char) (hA : ∀ c ∈ A, c ≠ ',') :
    (A ++ ',' :: B).takeWhile (fun c => c ≠ ',') = A := by
  induction A with
  | nil => simp [List.takeWhile]
  | cons a A ih =>
    have ha : a ≠ ',' := hA a (by simp)
    simp only [List.cons_append, List.takeWhile_cons]
    rw [if_pos (by simpa using ha)]
    rw [ih (fun c hc => hA c (by simp [hc]))]

theorem dropWhile_digits_comma (A B : List Char) (hA : ∀ c ∈ A, c ≠ ',') :
    (A ++ ',' :: B).dropWhile (fun c => c ≠ ',') = ',' :: B := by
  induction A with
  | nil => simp [List.dropWhile]
  | cons a A ih =>
    have ha : a ≠ ',' := hA a (by simp)
    simp only [List.cons_append, List.dropWhile_cons]
    rw [if_pos (by simpa using ha)]
    exact ih (fun c hc => hA c (by simp [hc]))

theorem fromStr_fmt (x y : Nat) (hx : x < fieldPrime) (hy : y < fieldPrime) :
    PublicKey.fromStr (PublicKey.fmt ⟨⟨x, y⟩⟩) = .ok ⟨⟨x, y⟩⟩ := by
  have hdata : (PublicKey.fmt ⟨⟨x, y⟩⟩).data = natDigits x ++ ',' :: natDigits y := rfl
  rw [PublicKey.fromStr, hdata]
  rw [takeWhile_digits_comma _ _ (natDigits_ne_comma x),
    dropWhile_digits_comma _ _ (natDigits_ne_comma x)]
  simp [parseNat_natDigits, hx, hy]

/-! The claim theorems. -/

/-- C1 (counterexample): the claim "the operation fails with a decode error
and never panics" is false at the concrete request address `banana`: decoding
fails, and the stealth-address handler panics on its `unwrap`. -/
theorem c1_stealth_panics_on_malformed :
    PublicKey.fromStr "banana" = .error .malformed ∧
      stealthRoute ⟨"banana"⟩ 0 = .panicked := by
  exact ⟨by decide, by decide⟩

/-- C1 (amended): for a request address that is not a valid canonical
public-key encoding, decoding fails with a decode error but the
stealth-address handler panics on the `unwrap` of that error instead of
surfacing it; a well-formed encoding parses successfully (the handler
answers) and round-trips with the textual formatting. -/
theorem c1_stealth_decode_amended (s : String) (rng : Nat) :
    (∀ e, PublicKey.fromStr s = .error e → stealthRoute ⟨s⟩ rng = .panicked) ∧
    (∀ pk, PublicKey.fromStr s = .ok pk →
      stealthRoute ⟨s⟩ rng = .ok ⟨(pk.derive rng).2, (pk.derive rng).1⟩) ∧
    (∀ x y : Nat, x < fieldPrime → y < fieldPrime →
      PublicKey.fromStr (PublicKey.fmt ⟨⟨x, y⟩⟩) = .ok ⟨⟨x, y⟩⟩) := by
  refine ⟨?_, ?_, ?_⟩
  · intro e he
    rw [stealthRoute, he]
  · intro pk hpk
    rw [stealthRoute, hpk]
  · intro x y hx hy
    exact fromStr_fmt x y hx hy

/-- C1 (witness): the amended theorem applied at the malformed address
`banana` and at the formatted key `(12, 34)`. -/
theorem c1_stealth_decode_witness :
    stealthRoute ⟨"banana"⟩ 5 = .panicked ∧
      PublicKey.fromStr (PublicKey.fmt ⟨⟨12, 34⟩⟩) = .ok ⟨⟨12, 34⟩⟩ := by
  exact ⟨(c1_stealth_decode_amended "banana" 5).1 .malformed (by decide),
    (c1_stealth_decode_amended (PublicKey.fmt ⟨⟨12, 34⟩⟩) 5).2.2 12 34
      (by decide) (by decide)⟩

/-- The value-with-proof fetched by `get(2345)` in the withdraw scenario. -/
def withdrawVal : SparseMerkleTree.MtValue :=
  match withdrawTree.get hashSpec 2345 with
  | .ok v => v
  | .error _ => ⟨0, []⟩

/-- The proof object produced by `prove` on the withdraw scenario's witness
when the parameter artifact is present. -/
def withdrawProofVal : Proof :=
  match prove true paramsFilePath 2345 withdrawVal.value 123 withdrawVal.proof
      123 234 with
  | .ok pf => pf
  | .error _ => Proof.zero

set_option maxRecDepth 100000 in
/-- C2: the withdraw branch executes exactly the specified scenario — the
five assignments 123→4567, 2345→4567, 2346→1234, 0→11234, 12345678→11234 on
a fresh depth-32 tree all succeed, `get(2345)` returns value 4567 with its
path, `verify` accepts that value against the root, and the branch hands
`(2345, value, timestamp 123, fetched path, fee_a 123, fee_b 234)` to
`prove`, finishing without a panic with either the generated proof or the
propagated `ProofGenerationError`, whichever `prove` returns. -/
theorem c2_withdraw_end_to_end (pp : Bool) (file : WalletFile) (dest : Nat) :
    applySets (SparseMerkleTree.new 32) withdrawSets = .ok withdrawTree ∧
    withdrawTree.get hashSpec 2345 = .ok withdrawVal ∧
    withdrawVal.value = 4567 ∧
    SparseMerkleTree.verify hashSpec (withdrawTree.root hashSpec) 2345
      withdrawVal = true ∧
    (runWithdraw hashSpec pp file dest).isPanic = false ∧
    ((∃ pf, prove pp paramsFilePath 2345 withdrawVal.value 123
          withdrawVal.proof 123 234 = .ok pf ∧
        runWithdraw hashSpec pp file dest = .completed (some pf) file
          [.rootAndVerify (withdrawTree.root hashSpec) true, .proofLine pf,
            .withdrawTo dest]) ∨
      (∃ e, prove pp paramsFilePath 2345 withdrawVal.value 123
          withdrawVal.proof 123 234 = .error e ∧
        runWithdraw hashSpec pp file dest =
          .proveFailed e file
            [.rootAndVerify (withdrawTree.root hashSpec) true])) := by
  have happly : applySets (SparseMerkleTree.new 32) withdrawSets =
      .ok withdrawTree := by decide
  have hget : withdrawTree.get hashSpec 2345 = .ok withdrawVal := by decide
  have hval : withdrawVal.value = 4567 := by decide
  have hver : SparseMerkleTree.verify hashSpec (withdrawTree.root hashSpec)
      2345 withdrawVal = true := by decide
  cases pp with
  | false =>
    have hrun : runWithdraw hashSpec false file dest =
        .proveFailed .paramsArtifactMissing file
          [.rootAndVerify (withdrawTree.root hashSpec) true] := by rfl
    refine ⟨happly, hget, hval, hver, by rw [hrun]; rfl, .inr ⟨.paramsArtifactMissing, rfl, hrun⟩⟩
  | true =>
    have hprove : prove true paramsFilePath 2345 withdrawVal.value 123
        withdrawVal.proof 123 234 = .ok withdrawProofVal := by decide
    have hrun : runWithdraw hashSpec true file dest =
        .completed (some withdrawProofVal) file
          [.rootAndVerify (withdrawTree.root hashSpec) true,
            .proofLine withdrawProofVal, .withdrawTo dest] := by rfl
    refine ⟨happly, hget, hval, hver, by rw [hrun]; rfl,
      .inl ⟨withdrawProofVal, hprove, hrun⟩⟩

/-- C3: the out-of-circuit hash of the fixed pair `(123, 234)` equals the
pinned reference field element
`0x0e331f99e024251a3a17152d7562d6257edc99595f9169b4e3b122d58a0e9d62`, the
value `test_poseidon` asserts for the in-circuit evaluation on that pair. -/
theorem c3_hash_pinned_vector :
    hashSpec 123 234 = pinnedHash123234 ∧ pinnedHash123234 < fieldPrime := by
  exact ⟨by decide, by decide⟩

/-- C4: the public inputs handed to the verifier are exactly the four values
`[root, nullifier, fee_a, fee_b]` in that fixed order — position 0 the root,
1 the nullifier, 2 `fee_a`, 3 `fee_b` — and the concrete array passed by
`test_deposit` is that ordering instantiated with its tree root, the
nullifier of key 1234 at leaf 2345, and fees 123 and 234. -/
theorem c4_verifier_input_order (hashFn : Nat → Nat → Nat)
    (treeRoot nullifier feeA feeB : Nat) :
    (verifierPublicInputs treeRoot nullifier feeA feeB)[0]? = some treeRoot ∧
    (verifierPublicInputs treeRoot nullifier feeA feeB)[1]? = some nullifier ∧
    (verifierPublicInputs treeRoot nullifier feeA feeB)[2]? = some feeA ∧
    (verifierPublicInputs treeRoot nullifier feeA feeB)[3]? = some feeB ∧
    (verifierPublicInputs treeRoot nullifier feeA feeB).length = 4 ∧
    testDepositPublicInputs hashFn =
      verifierPublicInputs ((testDepositTree hashFn).root hashFn)
        (PrivateKey.nullifier hashFn ⟨1234⟩ 2345) 123 234 := by
  exact ⟨rfl, rfl, rfl, rfl, rfl, rfl⟩

/-- C5: setting the same index to the same value twice yields the same root
as a single `set` — the second `set` succeeds on the state left by the first
and returns the very same state, for every hash function, tree state, valid
index and value. -/
theorem c5_set_idempotent (hashFn : Nat → Nat → Nat) (t : SparseMerkleTree)
    (i v : Nat) (h : i < 2 ^ t.depth) :
    ∃ t1 t2, t.set i v = .ok t1 ∧ t1.set i v = .ok t2 ∧
      t2.root hashFn = t1.root hashFn := by
  have hfilter :
      ((i, v) :: t.leaves.filter (fun kv => kv.1 ≠ i)).filter
          (fun kv => kv.1 ≠ i) = t.leaves.filter (fun kv => kv.1 ≠ i) := by
    simp [List.filter_cons]
  refine ⟨⟨t.depth, (i, v) :: t.leaves.filter (fun kv => kv.1 ≠ i)⟩,
    ⟨t.depth, (i, v) :: t.leaves.filter (fun kv => kv.1 ≠ i)⟩, ?_, ?_, rfl⟩
  · rw [SparseMerkleTree.set, if_pos h]
  · rw [SparseMerkleTree.set]
    rw [if_pos h, hfilter]

/-- C5 (witness): the idempotence theorem at the depth-32 tree holding leaf
123, index 2345 and value 7. -/
theorem c5_set_idempotent_witness :
    2345 < 2 ^ (SparseMerkleTree.mk 32 [(123, 4)]).depth ∧
      ∃ t1 t2, (SparseMerkleTree.mk 32 [(123, 4)]).set 2345 7 = .ok t1 ∧
        t1.set 2345 7 = .ok t2 ∧ t2.root hashSpec = t1.root hashSpec := by
  exact ⟨by decide,
    c5_set_idempotent hashSpec (SparseMerkleTree.mk 32 [(123, 4)]) 2345 7
      (by decide)⟩

/-- C6: `get` and `set` on an index at or beyond `2^depth` both fail with
`InvalidIndex`, deterministically, for every tree state, hash function and
value — the index is never truncated or clamped. -/
theorem c6_out_of_range_rejected (hashFn : Nat → Nat → Nat)
    (t : SparseMerkleTree) (i v : Nat) (h : 2 ^ t.depth ≤ i) :
    t.set i v = .error .invalidIndex ∧
      t.get hashFn i = .error .invalidIndex := by
  constructor
  · rw [SparseMerkleTree.set, if_neg (by omega)]
  · rw [SparseMerkleTree.get, if_neg (by omega)]

/-- C6 (witness): the rejection theorem at the fresh depth-32 tree and the
first out-of-range index `2^32`. -/
theorem c6_out_of_range_witness :
    2 ^ (SparseMerkleTree.new 32).depth ≤ 2 ^ 32 ∧
      (SparseMerkleTree.new 32).set (2 ^ 32) 5 = .error .invalidIndex ∧
      (SparseMerkleTree.new 32).get hashSpec (2 ^ 32) = .error .invalidIndex := by
  exact ⟨by decide,
    c6_out_of_range_rejected hashSpec (SparseMerkleTree.new 32) (2 ^ 32) 5
      (by decide)⟩

/-- C7: the nullifier is a deterministic function of the private scalar and
the leaf index — two keys with the same secret give the same nullifier at
every index — and for distinct indices the nullifiers differ exactly
whenever the hash primitive does not collide on the two
`(secret, index)` input pairs (the event the spec calls overwhelming). -/
theorem c7_nullifier_deterministic_unique (hashFn : Nat → Nat → Nat)
    (sk sk' : PrivateKey) (i j : Nat) (hsec : sk.secret = sk'.secret)
    (hcol : hashFn sk.secret i ≠ hashFn sk.secret j) :
    sk.nullifier hashFn i = sk'.nullifier hashFn i ∧
      sk.nullifier hashFn i ≠ sk.nullifier hashFn j := by
  constructor
  · rw [PrivateKey.nullifier, PrivateKey.nullifier, hsec]
  · exact hcol

/-- C7 (witness): the nullifier theorem at the `test_deposit` key of secret
1234 with the distinct indices 2345 and 2346. -/
theorem c7_nullifier_witness :
    PrivateKey.nullifier hashSpec ⟨1234⟩ 2345 =
        PrivateKey.nullifier hashSpec ⟨1234⟩ 2345 ∧
      PrivateKey.nullifier hashSpec ⟨1234⟩ 2345 ≠
        PrivateKey.nullifier hashSpec ⟨1234⟩ 2346 := by
  exact c7_nullifier_deterministic_unique hashSpec ⟨1234⟩ ⟨1234⟩ 2345 2346 rfl
    (by decide)

/-- C8: the `/withdraw` route answers every request, whatever the wallet's
key and the request content, with the default zero-valued proof, and its body
performs no prover invocation at all. -/
theorem c8_withdraw_route_default (pubKey : PublicKey) (reqContent : String) :
    withdrawRoute pubKey reqContent = (⟨Proof.zero⟩, []) ∧
      Proof.zero = ⟨0, 0, 0⟩ := by
  exact ⟨rfl, rfl⟩

/-- C9: when a valid wallet file exists, `Init` leaves it unchanged and only
prints that the wallet is already initialized; when the file is present but
invalid, `Init` panics before touching it; a fresh wallet — exactly a
generated private key and the given endpoint — is written only in the
no-file case. -/
theorem c9_init_preserves_existing (hashFn : Nat → Nat → Nat) (pp : Bool)
    (w : Wallet) (endpoint : String) (rng : Nat) :
    runMain hashFn pp (.valid w) (.init endpoint) rng =
        .completed none (.valid w) [.text "Wallet is already initialized!"] ∧
      runMain hashFn pp .missing (.init endpoint) rng =
        .completed none (.valid ⟨PrivateKey.generate rng, endpoint⟩) [] ∧
      runMain hashFn pp .invalid (.init endpoint) rng =
        .panicked "Invalid wallet file!" .invalid [] := by
  exact ⟨rfl, rfl, rfl⟩

/-- C10: with a wallet file that exists but does not deserialize as a
`Wallet`, every CLI command panics with `Invalid wallet file!` before any
dispatch — the final file state is untouched, nothing is printed, and the
result does not depend on the command. -/
theorem c10_invalid_wallet_panics (hashFn : Nat → Nat → Nat) (pp : Bool)
    (opt : CliOpt) (rng : Nat) :
    runMain hashFn pp .invalid opt rng =
      .panicked "Invalid wallet file!" .invalid [] := by
  rfl

end Owshen
